import Mathlib

/-!
Verification development for the merchant-analytic-api repository.

The file gives a shallow embedding of the ingestion pipeline
(src/utils/csv_to_psql.py) and the aggregation engine
(src/services/analytics_service.py) over the event table declared in
src/models/merchant_event.py, and proves properties of the embedded
functions.

Conventions of the embedding:
- The database session is a list of MerchantEvent rows; a committed bulk
  insert appends to that list.
- Monetary amounts (SQL Numeric with precision 15 and scale 2) are held
  exactly, in cents, as Int, so a 2-decimal-place rounding of a stored
  amount or of a sum of stored amounts is the identity.
- Failure-rate percentages rounded to 1 decimal place are held exactly in
  tenths of a percent as Nat (300 stands for 30.0 percent).
- A raising storage query is modelled by the Option layer on the input of
  each aggregation function: none stands for a session whose query raises.
- Python datetime.fromisoformat and datetime.strptime, which the code
  calls, are modelled below over lists of characters; the model covers the
  fixed-point and datetime literal shapes the seven listed format strings
  and the documented ISO-8601 grammar accept.
-/

/-- Model of the Python str.strip method: remove leading and trailing
whitespace characters. -/
def pyStrip (s : String) : String :=
  String.mk (((s.data.dropWhile Char.isWhitespace).reverse.dropWhile Char.isWhitespace).reverse)

/-- Digit character to its numeric value. -/
def digitVal (c : Char) : Nat := c.toNat - 48

/-- Numeric value of a list of digit characters, most significant first. -/
def digitsToNat (ds : List Char) : Nat := ds.foldl (fun n c => 10 * n + digitVal c) 0

/-- Take up to k leading digit characters. -/
def takeDigits : Nat → List Char → List Char × List Char
  | 0, cs => ([], cs)
  | _, [] => ([], [])
  | k + 1, c :: rest =>
    if c.isDigit then
      let p := takeDigits k rest
      (c :: p.1, p.2)
    else ([], c :: rest)

/-- Gregorian leap-year rule, as in the Python datetime module. -/
def isLeapYear (y : Nat) : Bool := y % 4 = 0 && (y % 100 ≠ 0 || y % 400 = 0)

/-- Number of days in a month, as validated by the datetime constructor. -/
def daysInMonth (y mo : Nat) : Nat :=
  if mo = 2 then (if isLeapYear y then 29 else 28)
  else if mo = 4 || mo = 6 || mo = 9 || mo = 11 then 30
  else 31

/-- Partial date-time record accumulated while matching a strptime format.
The initial values are the strptime defaults (year 1900, first day). -/
structure PDT where
  y : Nat
  mo : Nat
  d : Nat
  h : Nat
  mi : Nat
  s : Nat
  us : Nat
deriving DecidableEq, Repr

/-- Validation performed by the Python datetime constructor after a
strptime regex match: calendar day bounds and time-of-day bounds (a
regex-accepted leap second of 60 or 61 is rejected here). -/
def validPDT (p : PDT) : Bool :=
  1 ≤ p.y && p.y ≤ 9999 && 1 ≤ p.mo && p.mo ≤ 12 &&
  1 ≤ p.d && p.d ≤ daysInMonth p.y p.mo &&
  p.h ≤ 23 && p.mi ≤ 59 && p.s ≤ 59 && p.us ≤ 999999

/-- Directives of the seven format strings used by the code: numeric
fields, a literal character, and whitespace. -/
inductive Dir where
  | year
  | month
  | day
  | hour
  | minute
  | second
  | frac
  | lit (c : Char)
  | space
deriving DecidableEq

/-- Match a two-digit-maximum numeric field the way the strptime regex
does: up to two digits greedily, a two-digit match must lie in the
two-digit range of the directive, a one-digit match in its one-digit
range.  For the seven formats of this code every numeric field is
followed by a non-digit literal, whitespace or end of input, so greedy
matching without backtracking agrees with the regex on every input. -/
def matchNum2 (lo2 hi2 lo1 hi1 : Nat) (cs : List Char) : Option (Nat × List Char) :=
  let p := takeDigits 2 cs
  let v := digitsToNat p.1
  if p.1.length = 2 then (if lo2 ≤ v && v ≤ hi2 then some (v, p.2) else none)
  else if p.1.length = 1 then (if lo1 ≤ v && v ≤ hi1 then some (v, p.2) else none)
  else none

/-- Match one directive against the input, updating the partial date-time.
Ranges follow the regexes of the Python strptime implementation; the
second field admits 60 and 61 at this stage, rejected later by validPDT. -/
def matchDir (dt : PDT) (dr : Dir) (cs : List Char) : Option (PDT × List Char) :=
  match dr with
  | .year =>
    let p := takeDigits 4 cs
    if p.1.length = 4 then
      some (⟨digitsToNat p.1, dt.mo, dt.d, dt.h, dt.mi, dt.s, dt.us⟩, p.2)
    else none
  | .month =>
    match matchNum2 1 12 1 9 cs with
    | some q => some (⟨dt.y, q.1, dt.d, dt.h, dt.mi, dt.s, dt.us⟩, q.2)
    | none => none
  | .day =>
    match matchNum2 1 31 1 9 cs with
    | some q => some (⟨dt.y, dt.mo, q.1, dt.h, dt.mi, dt.s, dt.us⟩, q.2)
    | none => none
  | .hour =>
    match matchNum2 0 23 0 9 cs with
    | some q => some (⟨dt.y, dt.mo, dt.d, q.1, dt.mi, dt.s, dt.us⟩, q.2)
    | none => none
  | .minute =>
    match matchNum2 0 59 0 9 cs with
    | some q => some (⟨dt.y, dt.mo, dt.d, dt.h, q.1, dt.s, dt.us⟩, q.2)
    | none => none
  | .second =>
    match matchNum2 0 61 0 9 cs with
    | some q => some (⟨dt.y, dt.mo, dt.d, dt.h, dt.mi, q.1, dt.us⟩, q.2)
    | none => none
  | .frac =>
    let p := takeDigits 6 cs
    if p.1.length = 0 then none
    else some (⟨dt.y, dt.mo, dt.d, dt.h, dt.mi, dt.s,
      digitsToNat p.1 * 10 ^ (6 - p.1.length)⟩, p.2)
  | .lit c =>
    match cs with
    | [] => none
    | x :: rest => if x = c then some (dt, rest) else none
  | .space =>
    match cs with
    | [] => none
    | x :: rest =>
      if x.isWhitespace then some (dt, rest.dropWhile Char.isWhitespace) else none

/-- Run a whole format over the input; the match must consume the whole
string, as the strptime implementation requires. -/
def runFormat (dt : PDT) : List Dir → List Char → Option PDT
  | [], cs => if cs.isEmpty then some dt else none
  | dr :: rest, cs =>
    match matchDir dt dr cs with
    | some q => runFormat q.1 rest q.2
    | none => none

/-- Parsed date-time value: the fields of a Python datetime, with an
optional UTC offset in minutes. -/
structure DT where
  y : Nat
  mo : Nat
  d : Nat
  h : Nat
  mi : Nat
  s : Nat
  us : Nat
  tzmin : Option Int
deriving DecidableEq, Repr

/-- Model of datetime.strptime for one format string: regex-style match
of the whole input, then constructor validation; strptime formats carry
no offset directive, so the result is naive. -/
def strptime (dirs : List Dir) (s : String) : Option DT :=
  match runFormat ⟨1900, 1, 1, 0, 0, 0, 0⟩ dirs s.data with
  | some p =>
    if validPDT p then some ⟨p.y, p.mo, p.d, p.h, p.mi, p.s, p.us, none⟩ else none
  | none => none

/-- Exactly two digit characters. -/
def parseExact2 (cs : List Char) : Option (Nat × List Char) :=
  let p := takeDigits 2 cs
  if p.1.length = 2 then some (digitsToNat p.1, p.2) else none

/-- Exactly four digit characters. -/
def parseExact4 (cs : List Char) : Option (Nat × List Char) :=
  let p := takeDigits 4 cs
  if p.1.length = 4 then some (digitsToNat p.1, p.2) else none

/-- Fractional part of an ISO time: a dot followed by exactly three or
exactly six digits, scaled to microseconds. -/
def parseIsoFrac (cs : List Char) : Option (Nat × List Char) :=
  match cs with
  | '.' :: rest =>
    let p := takeDigits 6 rest
    if p.1.length = 6 then some (digitsToNat p.1, p.2)
    else if p.1.length = 3 then some (digitsToNat p.1 * 1000, p.2)
    else none
  | _ => none

/-- Time part HH:MM with optional :SS and optional fraction. -/
def parseIsoTime (cs : List Char) : Option (Nat × Nat × Nat × Nat × List Char) :=
  match parseExact2 cs with
  | none => none
  | some q1 =>
    match q1.2 with
    | ':' :: r1 =>
      match parseExact2 r1 with
      | none => none
      | some q2 =>
        match q2.2 with
        | ':' :: r2 =>
          match parseExact2 r2 with
          | none => none
          | some q3 =>
            match parseIsoFrac q3.2 with
            | some q4 => some (q1.1, q2.1, q3.1, q4.1, q4.2)
            | none => some (q1.1, q2.1, q3.1, 0, q3.2)
        | rest => some (q1.1, q2.1, 0, 0, rest)
    | _ => none

/-- Optional UTC offset: a sign, HH:MM. -/
def parseIsoTz (cs : List Char) : Option (Option Int × List Char) :=
  match cs with
  | '+' :: r =>
    match parseIsoTime r with
    | some q => if q.1 ≤ 23 && q.2.1 ≤ 59 && q.2.2.1 = 0 && q.2.2.2.1 = 0 then
        some (some ((q.1 : Int) * 60 + (q.2.1 : Int)), q.2.2.2.2) else none
    | none => none
  | '-' :: r =>
    match parseIsoTime r with
    | some q => if q.1 ≤ 23 && q.2.1 ≤ 59 && q.2.2.1 = 0 && q.2.2.2.1 = 0 then
        some (some (-((q.1 : Int) * 60 + (q.2.1 : Int))), q.2.2.2.2) else none
    | none => none
  | rest => some (none, rest)

/-- Model of datetime.fromisoformat as documented for Python 3.7 to 3.10:
a YYYY-MM-DD date, optionally followed by one separator character and a
time HH:MM[:SS[.fff or .ffffff]], optionally followed by an offset
+HH:MM or -HH:MM. -/
def fromisoformat (s : String) : Option DT :=
  match parseExact4 s.data with
  | none => none
  | some qy =>
    match qy.2 with
    | '-' :: r1 =>
      match parseExact2 r1 with
      | none => none
      | some qm =>
        match qm.2 with
        | '-' :: r2 =>
          match parseExact2 r2 with
          | none => none
          | some qd =>
            match qd.2 with
            | [] =>
              if validPDT ⟨qy.1, qm.1, qd.1, 0, 0, 0, 0⟩ then
                some ⟨qy.1, qm.1, qd.1, 0, 0, 0, 0, none⟩
              else none
            | _sep :: r3 =>
              match parseIsoTime r3 with
              | none => none
              | some qt =>
                match parseIsoTz qt.2.2.2.2 with
                | none => none
                | some qz =>
                  if qz.2.isEmpty &&
                      validPDT ⟨qy.1, qm.1, qd.1, qt.1, qt.2.1, qt.2.2.1, qt.2.2.2.1⟩ then
                    some ⟨qy.1, qm.1, qd.1, qt.1, qt.2.1, qt.2.2.1, qt.2.2.2.1, qz.1⟩
                  else none
        | _ => none
    | _ => none

/-- Left-pad the decimal representation of n with zeros to width w. -/
def padNum (w n : Nat) : String :=
  let s := toString n
  String.mk (List.replicate (w - s.length) '0') ++ s

/-- Model of datetime.isoformat with the default T separator: seconds
always printed, microseconds printed exactly when nonzero, offset
printed as a signed HH:MM when the value is aware. -/
def isoformat (dt : DT) : String :=
  padNum 4 dt.y ++ "-" ++ padNum 2 dt.mo ++ "-" ++ padNum 2 dt.d ++ "T" ++
  padNum 2 dt.h ++ ":" ++ padNum 2 dt.mi ++ ":" ++ padNum 2 dt.s ++
  (if dt.us = 0 then "" else "." ++ padNum 6 dt.us) ++
  (match dt.tzmin with
   | none => ""
   | some ofs =>
     (if ofs < 0 then "-" else "+") ++
     padNum 2 (ofs.natAbs / 60) ++ ":" ++ padNum 2 (ofs.natAbs % 60))

/-- Format string Y-m-d H:M:S of csv_to_psql.py. -/
def fmtYmdHmsSpace : List Dir :=
  [.year, .lit '-', .month, .lit '-', .day, .space, .hour, .lit ':', .minute, .lit ':', .second]

/-- Format string Y-m-d H:M:S.f of csv_to_psql.py. -/
def fmtYmdHmsSpaceFrac : List Dir := fmtYmdHmsSpace ++ [.lit '.', .frac]

/-- Format string Y-m-dTH:M:S of csv_to_psql.py. -/
def fmtYmdHmsT : List Dir :=
  [.year, .lit '-', .month, .lit '-', .day, .lit 'T', .hour, .lit ':', .minute, .lit ':', .second]

/-- Format string Y-m-dTH:M:S.f of csv_to_psql.py. -/
def fmtYmdHmsTFrac : List Dir := fmtYmdHmsT ++ [.lit '.', .frac]

/-- Format string d/m/Y H:M:S of csv_to_psql.py. -/
def fmtDmyHms : List Dir :=
  [.day, .lit '/', .month, .lit '/', .year, .space, .hour, .lit ':', .minute, .lit ':', .second]

/-- Format string m/d/Y H:M:S of csv_to_psql.py. -/
def fmtMdyHms : List Dir :=
  [.month, .lit '/', .day, .lit '/', .year, .space, .hour, .lit ':', .minute, .lit ':', .second]

/-- Format string Y/m/d H:M:S of csv_to_psql.py. -/
def fmtYmdSlashHms : List Dir :=
  [.year, .lit '/', .month, .lit '/', .day, .space, .hour, .lit ':', .minute, .lit ':', .second]

/-- The formats list of csv_to_psql.py, in source order. -/
def strptimeFormats : List (List Dir) :=
  [fmtYmdHmsSpace, fmtYmdHmsSpaceFrac, fmtYmdHmsT, fmtYmdHmsTFrac,
   fmtDmyHms, fmtMdyHms, fmtYmdSlashHms]

/-- Embedding of the function convert_to_iso8601 of csv_to_psql.py:
empty or whitespace-only input gives the empty string; otherwise the
stripped input is tried with fromisoformat first, then with each
strptime format in source order, first success wins; the parsed value is
rendered with isoformat; if everything fails the result is the empty
string. -/
def convert_to_iso8601 (timestampStr : String) : String :=
  let t := pyStrip timestampStr
  if t = "" then ""
  else
    match fromisoformat t with
    | some dt => isoformat dt
    | none =>
      match strptimeFormats.findSome? (fun f => strptime f t) with
      | some dt => isoformat dt
      | none => ""

example : convert_to_iso8601 "2024-01-15 10:30:00" = "2024-01-15T10:30:00" := by decide
example : convert_to_iso8601 "not-a-date" = "" := by decide
example : convert_to_iso8601 "03/04/2024 10:00:00" = "2024-04-03T10:00:00" := by decide
example : convert_to_iso8601 "  " = "" := by decide
example : convert_to_iso8601 "2024-01-15T10:30:00.123456" = "2024-01-15T10:30:00.123456" := by decide

/-- Rounding of n / d (with d positive) to the nearest integer, ties away
from zero on nonnegative input, as SQL Numeric does when a value with
more fraction digits is stored at scale 2. -/
def roundHalfUpDiv (n d : Nat) : Nat :=
  if 2 * (n % d) ≥ d then n / d + 1 else n / d

/-- Model of the fixed-point coercion Decimal(str) followed by storage at
Numeric(15, 2) scale: surrounding whitespace stripped, optional sign, an
integer part and an optional fraction part with at least one digit in
total, value expressed in cents.  Scientific and special Decimal forms
are outside the model; every amount literal appearing in this repository
and its specification is a plain fixed-point literal. -/
def parseDecimalCents (s : String) : Option Int :=
  let cs := (pyStrip s).data
  let signed :=
    match cs with
    | '-' :: rest => (true, rest)
    | '+' :: rest => (false, rest)
    | rest => (false, rest)
  let ip := signed.2.takeWhile Char.isDigit
  let r1 := signed.2.dropWhile Char.isDigit
  match r1 with
  | [] =>
    if ip.isEmpty then none
    else
      let cents := digitsToNat ip * 100
      some (if signed.1 then -(cents : Int) else (cents : Int))
  | '.' :: r2 =>
    let fp := r2.takeWhile Char.isDigit
    let r3 := r2.dropWhile Char.isDigit
    if r3.isEmpty = false then none
    else if ip.isEmpty && fp.isEmpty then none
    else
      let total := digitsToNat ip * 10 ^ fp.length + digitsToNat fp
      let cents := roundHalfUpDiv (total * 100) (10 ^ fp.length)
      some (if signed.1 then -(cents : Int) else (cents : Int))
  | _ => none

example : parseDecimalCents "10.00" = some 1000 := by decide
example : parseDecimalCents "not-a-number" = none := by decide
example : parseDecimalCents " 3.5 " = some 350 := by decide
example : parseDecimalCents "-2.125" = some (-213) := by decide
example : parseDecimalCents "" = none := by decide
example : parseDecimalCents "." = none := by decide
example : parseDecimalCents ".5" = some 50 := by decide

/-- Persisted event row, as declared by the MerchantEvent model in
src/models/merchant_event.py: every column other than event_id and
amount is nullable; amount is a non-null Numeric(15, 2) value held here
in cents. -/
structure MerchantEvent where
  event_id : String
  merchant_id : Option String
  event_timestamp : Option String
  product : Option String
  event_type : Option String
  amount : Option Int
  status : Option String
  channel : Option String
  region : Option String
  merchant_tier : Option String
deriving DecidableEq, Repr

/-- Raw CSV data row with the ten header columns; a missing column reads
as the empty string, as row.get with an empty-string default does. -/
structure CsvRow where
  event_id : String
  merchant_id : String
  event_timestamp : String
  product : String
  event_type : String
  amount : String
  status : String
  channel : String
  region : String
  merchant_tier : String
deriving DecidableEq, Repr

/-- Empty string to null, the conversion Pydantic applies to the
nullable string fields on the way into the insert. -/
def emptyToNone (s : String) : Option String :=
  if s = "" then none else some s

/-- Amount field handling of the row schema: a blank field takes the
declared 0.00 default, a non-blank field is coerced as a fixed-point
decimal and the coercion can fail. -/
def decimalAmount (s : String) : Option Int :=
  if pyStrip s = "" then some 0 else parseDecimalCents s

/-- Modelled from the spec: the Pydantic schema MerchantEventCreate
(src/schemas/merchant_event.py) is not present under src/.  Following
sections 3, 4.1 and 8 of the specification and the comment in
csv_to_psql.py, the schema converts empty string fields to null, keeps a
non-empty merchant_id as given, gives amount its 0.00 default when the
field is blank, and raises a validation error (modelled as none) exactly
when a non-blank amount fails to parse as a fixed-point decimal; an
unparseable timestamp has already been converted to the empty string
before this point and never raises. -/
def merchantEventCreate (eid mid ts prod etype amt st ch reg tier : String) :
    Option MerchantEvent :=
  match decimalAmount amt with
  | none => none
  | some cents =>
    some ⟨eid, emptyToNone mid, emptyToNone ts, emptyToNone prod, emptyToNone etype,
      some cents, emptyToNone st, emptyToNone ch, emptyToNone reg, emptyToNone tier⟩

/-- Candidate record built from one CSV row, with the argument values
process_single_csv passes: stripped event_id and merchant_id, normalized
timestamp, remaining fields as read. -/
def rowToEvent (r : CsvRow) : Option MerchantEvent :=
  merchantEventCreate (pyStrip r.event_id) (pyStrip r.merchant_id)
    (convert_to_iso8601 r.event_timestamp) r.product r.event_type r.amount
    r.status r.channel r.region r.merchant_tier

/-- Individual existence query for a duplicate event_id against the
committed table. -/
def eventIdExists (db : List MerchantEvent) (eid : String) : Bool :=
  db.any (fun ev => ev.event_id = eid)

/-- Row loop of _process_single_csv in csv_to_psql.py: a row is skipped
when its stripped event_id is empty, when that event_id already exists
in the committed table, or when building the candidate record raises;
otherwise the candidate record is appended to the valid-records batch.
The duplicate check consults only the committed table db, never the
batch under construction. -/
def processRows (db : List MerchantEvent) : List CsvRow → List MerchantEvent
  | [] => []
  | r :: rest =>
    if pyStrip r.event_id = "" then processRows db rest
    else if eventIdExists db (pyStrip r.event_id) then processRows db rest
    else
      match rowToEvent r with
      | some ev => ev :: processRows db rest
      | none => processRows db rest

/-- Embedding of _process_single_csv: run the row loop over the file,
then bulk-insert the batch and commit, which appends it to the table
(the empty batch performs no insert, leaving the table equally
unchanged). -/
def process_single_csv (db : List MerchantEvent) (rows : List CsvRow) :
    List MerchantEvent :=
  db ++ processRows db rows

/-- File of a directory scan: either a readable CSV file with its parsed
data rows, or a file on which opening, iterating or bulk-inserting
raises (the code contains no try block at file granularity, so such an
exception escapes process_single_csv). -/
inductive FileEntry where
  | good (rows : List CsvRow)
  | bad
deriving DecidableEq

/-- Call of _process_single_csv on one file with the exception channel
made explicit: the per-row try blocks make a good file total, while a
file-level fault escapes as an error. -/
def processSingleCsvE (db : List MerchantEvent) :
    FileEntry → Except Unit (List MerchantEvent)
  | .good rows => .ok (process_single_csv db rows)
  | .bad => .error ()

/-- File loop of seed_data_from_folder: the files in lexicographic
order, each processed in turn on the table state left by its
predecessors; the loop body is not wrapped in any try, so an error
propagates and the remaining files are not processed. -/
def seedFiles (db : List MerchantEvent) :
    List FileEntry → Except Unit (List MerchantEvent)
  | [] => .ok db
  | f :: fs =>
    match processSingleCsvE db f with
    | .ok db2 => seedFiles db2 fs
    | .error e => .error e

/-- Embedding of seed_data_from_folder: when the event table already
holds a row the function returns at once, leaving the table untouched
and opening no file; otherwise every CSV file of the directory is
processed in order. -/
def seed_data_from_folder (db : List MerchantEvent) (files : List FileEntry) :
    Except Unit (List MerchantEvent) :=
  if db.isEmpty then seedFiles db files else .ok db

/-- Multi-file ingestion on fault-free files, used to state cross-file
properties. -/
def seedGood (db : List MerchantEvent) : List (List CsvRow) → List MerchantEvent
  | [] => db
  | rows :: rest => seedGood (process_single_csv db rows) rest

/-- Distinct elements of a list in order of first occurrence, skipping
those already seen. -/
def distinctAux (seen : List String) : List String → List String
  | [] => []
  | x :: xs =>
    if x ∈ seen then distinctAux seen xs
    else x :: distinctAux (x :: seen) xs

/-- Distinct elements of a list in order of first occurrence, the group
keys a SQL GROUP BY produces, enumerated deterministically. -/
def distinctList (xs : List String) : List String := distinctAux [] xs

/-- Stable insertion of an element into a list sorted descending on an
integer key: the element goes in front of the first strictly smaller
key, after all keys that tie with it. -/
def insertByDesc {α : Type} (key : α → Int) (a : α) : List α → List α
  | [] => [a]
  | y :: ys => if key y < key a then a :: y :: ys else y :: insertByDesc key a ys

/-- Stable descending sort on an integer key, the deterministic reading
of the descending ORDER BY of the aggregation queries (ties keep their
group-discovery order). -/
def sortByDesc {α : Type} (key : α → Int) : List α → List α
  | [] => []
  | x :: xs => insertByDesc key x (sortByDesc key xs)

/-- Successful event test, status column equal to the SUCCESS literal. -/
def isSuccess (ev : MerchantEvent) : Bool := ev.status = some "SUCCESS"

/-- Filter of the top-merchant query of analytics_service.py: status
SUCCESS, merchant_id non-null, amount non-null. -/
def qualifyingTop (db : List MerchantEvent) : List MerchantEvent :=
  db.filter (fun ev => isSuccess ev && ev.merchant_id.isSome && ev.amount.isSome)

/-- Sum of the amounts of the filtered events of one merchant group, in
cents. -/
def merchantTotal (q : List MerchantEvent) (m : String) : Int :=
  ((q.filter (fun ev => ev.merchant_id = some m)).map
    (fun ev => ev.amount.getD 0)).foldl (fun a b => a + b) 0

/-- Merchant groups of the top-merchant query with their summed volumes,
in group-discovery order. -/
def topGroups (db : List MerchantEvent) : List (String × Int) :=
  (distinctList ((qualifyingTop db).filterMap (fun ev => ev.merchant_id))).map
    (fun m => (m, merchantTotal (qualifyingTop db) m))

/-- Embedding of AnalyticsService.get_top_merchant: on a raising session
the exception handler returns the null default; otherwise the groups are
ordered by summed volume descending and the first one is returned, the
volume exact in cents (its 2-decimal-place rounding is the identity);
with no qualifying row the result is the null default. -/
def get_top_merchant (dbq : Option (List MerchantEvent)) : Option String × Int :=
  match dbq with
  | none => (none, 0)
  | some db =>
    match sortByDesc (fun p => p.2) (topGroups db) with
    | [] => (none, 0)
    | g :: _ => (some g.1, g.2)

/-- Month key YYYY-MM of a stored ISO timestamp, the to_char projection
of the monthly-active-merchants query. -/
def monthOf (ts : String) : String := String.mk (ts.data.take 7)

/-- Stable insertion into a list of month rows sorted ascending by month
string. -/
def insertMonthAsc (a : String × Nat) : List (String × Nat) → List (String × Nat)
  | [] => [a]
  | y :: ys => if a.1 < y.1 then a :: y :: ys else y :: insertMonthAsc a ys

/-- Ascending sort of month rows by month string. -/
def sortMonthAsc : List (String × Nat) → List (String × Nat)
  | [] => []
  | x :: xs => insertMonthAsc x (sortMonthAsc xs)

/-- Filter of the monthly-active-merchants query: status SUCCESS,
merchant_id non-null, event_timestamp non-null. -/
def qualifyingMonthly (db : List MerchantEvent) : List MerchantEvent :=
  db.filter (fun ev => isSuccess ev && ev.merchant_id.isSome && ev.event_timestamp.isSome)

/-- Distinct merchants of the filtered events in one month group. -/
def monthMerchants (q : List MerchantEvent) (mo : String) : Nat :=
  (distinctList ((q.filter (fun ev => (ev.event_timestamp.map monthOf) = some mo)).filterMap
    (fun ev => ev.merchant_id))).length

/-- Embedding of AnalyticsService.get_monthly_active_merchants: on a
raising session the handler returns the empty mapping; otherwise one row
per distinct month ordered ascending, counting distinct merchants, the
dictionary comprehension dropping a falsy (empty) month key. -/
def get_monthly_active_merchants (dbq : Option (List MerchantEvent)) :
    List (String × Nat) :=
  match dbq with
  | none => []
  | some db =>
    let q := qualifyingMonthly db
    (sortMonthAsc ((distinctList (q.filterMap
        (fun ev => ev.event_timestamp.map monthOf))).map
      (fun mo => (mo, monthMerchants q mo)))).filter (fun row => row.1 ≠ "")

/-- Filter of the product-adoption query: product non-null, merchant_id
non-null, no status filter. -/
def qualifyingAdoption (db : List MerchantEvent) : List MerchantEvent :=
  db.filter (fun ev => ev.product.isSome && ev.merchant_id.isSome)

/-- Distinct merchants of the filtered events in one product group. -/
def productMerchants (q : List MerchantEvent) (p : String) : Nat :=
  (distinctList ((q.filter (fun ev => ev.product = some p)).filterMap
    (fun ev => ev.merchant_id))).length

/-- Embedding of AnalyticsService.get_product_adoption: on a raising
session the handler returns the empty mapping; otherwise one row per
distinct product ordered by distinct-merchant count descending, the
dictionary comprehension dropping a falsy (empty) product key. -/
def get_product_adoption (dbq : Option (List MerchantEvent)) :
    List (String × Nat) :=
  match dbq with
  | none => []
  | some db =>
    let q := qualifyingAdoption db
    (sortByDesc (fun row => (row.2 : Int)) ((distinctList (q.filterMap
        (fun ev => ev.product))).map
      (fun p => (p, productMerchants q p)))).filter (fun row => row.1 ≠ "")

/-- Distinct merchants with a successful event at one fixed KYC tier. -/
def tierCount (db : List MerchantEvent) (stage : String) : Nat :=
  (distinctList ((db.filter (fun ev =>
      ev.merchant_tier = some stage && isSuccess ev && ev.merchant_id.isSome)).filterMap
    (fun ev => ev.merchant_id))).length

/-- Embedding of AnalyticsService.get_kyc_funnel: on a raising session
the handler returns the all-zero funnel; otherwise the three independent
per-tier counts in the fixed key order starter, verified, premium. -/
def get_kyc_funnel (dbq : Option (List MerchantEvent)) : Nat × Nat × Nat :=
  match dbq with
  | none => (0, 0, 0)
  | some db => (tierCount db "STARTER", tierCount db "VERIFIED", tierCount db "PREMIUM")

/-- Filter of the failure-rates query: product non-null and status in
SUCCESS, FAILED. -/
def qualifyingFR (db : List MerchantEvent) : List MerchantEvent :=
  db.filter (fun ev =>
    ev.product.isSome && (ev.status = some "SUCCESS" || ev.status = some "FAILED"))

/-- Count of the filtered events of one product group carrying one
status value. -/
def statusCount (q : List MerchantEvent) (p st : String) : Nat :=
  (q.filter (fun ev => ev.product = some p && ev.status = some st)).length

/-- Rounding of f / t * 100 to one decimal place, held in tenths of a
percent, ties to even as the Python round builtin does on the exact
quotient. -/
def rateTenths (f t : Nat) : Nat :=
  let n := f * 1000
  let q := n / t
  let r := n % t
  if 2 * r < t then q
  else if 2 * r > t then q + 1
  else if q % 2 = 0 then q else q + 1

/-- Per-product failure-rate rows in group-discovery order: a group with
zero SUCCESS plus FAILED total is skipped by the division guard. -/
def failureRateRows (db : List MerchantEvent) : List (String × Nat) :=
  (distinctList ((qualifyingFR db).filterMap (fun ev => ev.product))).filterMap
    (fun p =>
      if 0 < statusCount (qualifyingFR db) p "FAILED" +
          statusCount (qualifyingFR db) p "SUCCESS" then
        some (p, rateTenths (statusCount (qualifyingFR db) p "FAILED")
          (statusCount (qualifyingFR db) p "FAILED" +
           statusCount (qualifyingFR db) p "SUCCESS"))
      else none)

/-- Embedding of AnalyticsService.get_failure_rates: on a raising
session the handler returns the empty sequence; otherwise the
per-product rows sorted by failure rate descending. -/
def get_failure_rates (dbq : Option (List MerchantEvent)) : List (String × Nat) :=
  match dbq with
  | none => []
  | some db => sortByDesc (fun row => (row.2 : Int)) (failureRateRows db)

/-- A candidate record carries the stripped event_id of its source row. -/
theorem rowToEvent_event_id {r : CsvRow} {ev : MerchantEvent}
    (h : rowToEvent r = some ev) : ev.event_id = pyStrip r.event_id := by
  unfold rowToEvent merchantEventCreate at h
  cases ha : decimalAmount r.amount with
  | none => rw [ha] at h; exact absurd h (by simp)
  | some cents => rw [ha] at h; cases h; rfl

/-- Whether a candidate record is built from a row does not depend on the
timestamp argument, only the amount field can fail. -/
theorem rowToEvent_isSome {r : CsvRow} :
    (rowToEvent r).isSome = (decimalAmount r.amount).isSome := by
  unfold rowToEvent merchantEventCreate
  cases ha : decimalAmount r.amount <;> simp [ha]

/-- The row loop distributes over concatenation of row lists: each row is
judged against the committed table alone, independently of the other
rows of the file. -/
theorem processRows_append (db : List MerchantEvent) (xs ys : List CsvRow) :
    processRows db (xs ++ ys) = processRows db xs ++ processRows db ys := by
  induction xs with
  | nil => simp [processRows]
  | cons r rest ih =>
    by_cases h1 : pyStrip r.event_id = ""
    · simp [processRows, h1, ih]
    · by_cases h2 : eventIdExists db (pyStrip r.event_id)
      · simp [processRows, h1, h2, ih]
      · cases h3 : rowToEvent r <;> simp [processRows, h1, h2, h3, ih]

/-- Every record the row loop emits has an event_id absent from the
committed table the loop was run against. -/
theorem mem_processRows_fresh {db : List MerchantEvent} {rows : List CsvRow}
    {ev : MerchantEvent} (h : ev ∈ processRows db rows) :
    eventIdExists db ev.event_id = false := by
  induction rows with
  | nil => simp [processRows] at h
  | cons r rest ih =>
    by_cases h1 : pyStrip r.event_id = ""
    · rw [processRows] at h; rw [if_pos h1] at h; exact ih h
    · by_cases h2 : eventIdExists db (pyStrip r.event_id)
      · rw [processRows] at h; rw [if_neg h1, if_pos h2] at h; exact ih h
      · cases h3 : rowToEvent r with
        | none =>
          rw [processRows] at h; rw [if_neg h1, if_neg h2, h3] at h; exact ih h
        | some ev2 =>
          rw [processRows] at h; rw [if_neg h1, if_neg h2, h3] at h
          rcases List.mem_cons.mp h with he | hm
          · rw [he, rowToEvent_event_id h3]
            simpa using h2
          · exact ih hm

/-- Every record the row loop emits has a non-empty event_id. -/
theorem mem_processRows_ne_empty {db : List MerchantEvent} {rows : List CsvRow}
    {ev : MerchantEvent} (h : ev ∈ processRows db rows) : ev.event_id ≠ "" := by
  induction rows with
  | nil => simp [processRows] at h
  | cons r rest ih =>
    by_cases h1 : pyStrip r.event_id = ""
    · rw [processRows] at h; rw [if_pos h1] at h; exact ih h
    · by_cases h2 : eventIdExists db (pyStrip r.event_id)
      · rw [processRows] at h; rw [if_neg h1, if_pos h2] at h; exact ih h
      · cases h3 : rowToEvent r with
        | none =>
          rw [processRows] at h; rw [if_neg h1, if_neg h2, h3] at h; exact ih h
        | some ev2 =>
          rw [processRows] at h; rw [if_neg h1, if_neg h2, h3] at h
          rcases List.mem_cons.mp h with he | hm
          · rw [he, rowToEvent_event_id h3]; exact h1
          · exact ih hm

/-- Claim C9: each of the five aggregation operations converts a raising
storage query (the none session) into its well-defined empty or zero
default instead of propagating the fault: the null top merchant with
zero volume, the empty month mapping, the empty product mapping, the
all-zero tier funnel, and the empty failure-rate sequence. -/
theorem claim_c9_query_failure_defaults :
    get_top_merchant none = (none, 0) ∧
    get_monthly_active_merchants none = [] ∧
    get_product_adoption none = [] ∧
    get_kyc_funnel none = (0, 0, 0) ∧
    get_failure_rates none = [] :=
  ⟨rfl, rfl, rfl, rfl, rfl⟩

/-- Claim C5: when the event table already holds at least one row, the
ingestion entry point returns immediately as a no-op on any directory:
the resulting table is exactly the starting table, with no row added and
every stored row unchanged, and no file is processed. -/
theorem claim_c5_seed_noop (db : List MerchantEvent) (files : List FileEntry)
    (h : db ≠ []) : seed_data_from_folder db files = Except.ok db := by
  unfold seed_data_from_folder
  rw [if_neg]
  simpa using h

/-- Witness for claim C5 at a one-row table and a non-empty directory. -/
theorem claim_c5_seed_noop_witness :
    seed_data_from_folder
      [⟨"E0", some "M0", none, none, none, some 100, none, none, none, none⟩]
      [FileEntry.good [⟨"E1", "M1", "", "", "", "1.00", "", "", "", ""⟩], FileEntry.bad] =
    Except.ok [⟨"E0", some "M0", none, none, none, some 100, none, none, none, none⟩] :=
  claim_c5_seed_noop _ _ (by decide)

/-- A file-level fault anywhere in the directory makes the whole seeding
call raise, regardless of what stands before or after it. -/
theorem seedFiles_bad_aborts (db : List MerchantEvent)
    (fs1 fs2 : List FileEntry) :
    seedFiles db (fs1 ++ FileEntry.bad :: fs2) = Except.error () := by
  induction fs1 generalizing db with
  | nil => rfl
  | cons f rest ih =>
    cases f with
    | good rows => simpa [seedFiles, processSingleCsvE] using ih _
    | bad => rfl

/-- Counterexample to claim C2: on an empty table, a directory whose
first file faults (while a later file holds a perfectly valid row) makes
the whole scan raise; the later file is never processed and its row is
not persisted, so a per-file failure is not caught at the per-file
boundary and does not leave subsequent files processed. -/
theorem claim_c2_counterexample :
    seed_data_from_folder []
      [FileEntry.bad, FileEntry.good [⟨"E1", "M1", "", "", "", "1.00", "", "", "", ""⟩]] =
    Except.error () := rfl

/-- Claim C2 as amended: a failure on an individual data row is caught
inside the row loop, so a faulty row never makes a good file raise; but
no try surrounds the per-file work, so a failure raised while opening,
iterating or bulk-inserting one file propagates out of the directory
scan and processing of the subsequent files does not take place. -/
theorem claim_c2_no_per_file_isolation :
    (∀ db rows, processSingleCsvE db (FileEntry.good rows) =
      Except.ok (db ++ processRows db rows)) ∧
    (∀ fs1 fs2, seed_data_from_folder [] (fs1 ++ FileEntry.bad :: fs2) =
      Except.error ()) := by
  constructor
  · intro db rows; rfl
  · intro fs1 fs2
    unfold seed_data_from_folder
    rw [if_pos (by rfl)]
    exact seedFiles_bad_aborts [] fs1 fs2

/-- Counterexample to claim C1: a row whose merchant_id is empty in the
source CSV while its event_id is present is persisted anyway, with the
merchant_id column null; the row loop checks only event_id. -/
theorem claim_c1_counterexample :
    seed_data_from_folder [] [FileEntry.good [⟨"E1", "", "", "", "", "10.00", "", "", "", ""⟩]] =
    Except.ok [⟨"E1", none, none, none, none, some 1000, none, none, none, none⟩] := rfl

/-- Claim C1 as amended: a CSV data row is persisted only if its event_id
was non-empty after trimming in the source CSV; the merchant_id field is
trimmed and stored but its emptiness never prevents persistence, and in
particular a row with a fresh non-empty event_id, a convertible amount
and any merchant_id whatsoever, empty included, is persisted. -/
theorem claim_c1_event_id_only_required :
    (∀ db rows ev, ev ∈ processRows db rows → ev.event_id ≠ "") ∧
    (∀ db r ev, pyStrip r.event_id ≠ "" →
      eventIdExists db (pyStrip r.event_id) = false →
      rowToEvent r = some ev →
      process_single_csv db [r] = db ++ [ev]) := by
  constructor
  · intro db rows ev h; exact mem_processRows_ne_empty h
  · intro db r ev h1 h2 h3
    unfold process_single_csv
    rw [processRows]
    rw [if_neg h1, if_neg (by simp [h2]), h3]
    rfl

/-- Witness for claim C1 as amended: a concrete row with empty
merchant_id and fresh event_id is persisted on an empty table. -/
theorem claim_c1_witness :
    process_single_csv [] [⟨"E1", "", "", "", "", "10.00", "", "", "", ""⟩] =
    [] ++ [⟨"E1", none, none, none, none, some 1000, none, none, none, none⟩] :=
  claim_c1_event_id_only_required.2 [] _ _ (by decide) (by decide) (by decide)

/-- Replace the raw timestamp field of a CSV row. -/
def setTimestamp (r : CsvRow) (ts : String) : CsvRow :=
  ⟨r.event_id, r.merchant_id, ts, r.product, r.event_type, r.amount,
   r.status, r.channel, r.region, r.merchant_tier⟩

/-- A row whose amount field fails the fixed-point coercion contributes
nothing to the batch, whatever its other fields. -/
theorem processRows_cons_bad_amount {db : List MerchantEvent} {r : CsvRow}
    {post : List CsvRow} (h : decimalAmount r.amount = none) :
    processRows db (r :: post) = processRows db post := by
  rw [processRows]
  by_cases h1 : pyStrip r.event_id = ""
  · rw [if_pos h1]
  · rw [if_neg h1]
    by_cases h2 : eventIdExists db (pyStrip r.event_id)
    · rw [if_pos h2]
    · rw [if_neg h2]
      have h3 : rowToEvent r = none := by
        have := rowToEvent_isSome (r := r)
        rw [h] at this
        exact Option.not_isSome_iff_eq_none.mp (by simp [this])
      rw [h3]

/-- Claim C4: a CSV row whose non-blank amount field fails to parse as
the fixed-point decimal type makes the row-level conversion fail and the
row is skipped, never inserted with a defaulted amount, leaving the rest
of the file exactly as if the row were absent; by contrast the raw
timestamp field never influences whether a row is persisted, an
unparseable timestamp included. -/
theorem claim_c4_amount_rejects_timestamp_degrades :
    (∀ db (pre : List CsvRow) r post, decimalAmount r.amount = none →
      processRows db (pre ++ r :: post) = processRows db (pre ++ post)) ∧
    (∀ db r ts,
      (processRows db [setTimestamp r ts]).length = (processRows db [r]).length) := by
  constructor
  · intro db pre r post h
    rw [processRows_append, processRows_append, processRows_cons_bad_amount h]
  · intro db r ts
    have he : (setTimestamp r ts).event_id = r.event_id := rfl
    have hsome : (rowToEvent (setTimestamp r ts)).isSome = (rowToEvent r).isSome := by
      rw [rowToEvent_isSome, rowToEvent_isSome]
      rfl
    by_cases h1 : pyStrip r.event_id = ""
    · simp [processRows, he, h1]
    · by_cases h2 : eventIdExists db (pyStrip r.event_id)
      · simp [processRows, he, h1, h2]
      · cases h3 : rowToEvent r with
        | none =>
          have h4 : rowToEvent (setTimestamp r ts) = none := by
            rw [h3] at hsome
            exact Option.not_isSome_iff_eq_none.mp (by simp [hsome])
          simp [processRows, he, h1, h2, h3, h4]
        | some ev =>
          obtain ⟨ev2, h4⟩ : ∃ ev2, rowToEvent (setTimestamp r ts) = some ev2 := by
            rw [h3] at hsome
            exact Option.isSome_iff_exists.mp (by simp [hsome])
          simp [processRows, he, h1, h2, h3, h4]

/-- Witness for claim C4: a concrete row with amount not-a-number is
dropped from a one-row file, and changing the timestamp of a valid row
to garbage leaves the batch size untouched. -/
theorem claim_c4_witness :
    processRows [] ([] ++ ⟨"E1", "M1", "", "", "", "abc", "", "", "", ""⟩ :: []) =
      processRows [] ([] ++ []) ∧
    (processRows [] [setTimestamp ⟨"E1", "M1", "", "", "", "1.00", "", "", "", ""⟩ "not-a-date"]).length =
      (processRows [] [(⟨"E1", "M1", "", "", "", "1.00", "", "", "", ""⟩ : CsvRow)]).length :=
  ⟨claim_c4_amount_rejects_timestamp_degrades.1 [] [] _ [] (by decide),
   claim_c4_amount_rejects_timestamp_degrades.2 [] _ "not-a-date"⟩

/-- Claim C3: convert_to_iso8601 is total; an input that strips to the
empty string yields the empty string; any other input is tried with
ISO-8601 parsing first and then with the seven format patterns in the
fixed source order, first match wins, so a slash date whose day and
month parts are both at most 12 resolves day-first; when nothing matches
the result is the empty string; the two documented examples and two
day-first instances evaluate as stated. -/
theorem claim_c3_convert_to_iso8601 :
    (∀ s, pyStrip s = "" → convert_to_iso8601 s = "") ∧
    (∀ s, pyStrip s ≠ "" → convert_to_iso8601 s =
      (match fromisoformat (pyStrip s) with
       | some dt => isoformat dt
       | none =>
         match strptimeFormats.findSome? (fun f => strptime f (pyStrip s)) with
         | some dt => isoformat dt
         | none => "")) ∧
    strptimeFormats = [fmtYmdHmsSpace, fmtYmdHmsSpaceFrac, fmtYmdHmsT, fmtYmdHmsTFrac,
      fmtDmyHms, fmtMdyHms, fmtYmdSlashHms] ∧
    convert_to_iso8601 "2024-01-15 10:30:00" = "2024-01-15T10:30:00" ∧
    convert_to_iso8601 "not-a-date" = "" ∧
    convert_to_iso8601 "03/04/2024 10:00:00" = "2024-04-03T10:00:00" ∧
    convert_to_iso8601 "11/12/2024 08:00:00" = "2024-12-11T08:00:00" := by
  refine ⟨?_, ?_, rfl, by decide, by decide, by decide, by decide⟩
  · intro s h
    simp [convert_to_iso8601, h]
  · intro s h
    simp [convert_to_iso8601, h]

/-- Witness for claim C3: the stripping branch evaluated at a
whitespace-only input and the main branch at a documented input. -/
theorem claim_c3_witness :
    convert_to_iso8601 "   " = "" ∧
    convert_to_iso8601 "2024-01-15 10:30:00" =
      (match fromisoformat (pyStrip "2024-01-15 10:30:00") with
       | some dt => isoformat dt
       | none =>
         match strptimeFormats.findSome? (fun f => strptime f (pyStrip "2024-01-15 10:30:00")) with
         | some dt => isoformat dt
         | none => "") :=
  ⟨claim_c3_convert_to_iso8601.1 "   " (by decide),
   claim_c3_convert_to_iso8601.2.1 "2024-01-15 10:30:00" (by decide)⟩

/-- Claim C10: inside one file, the duplicate check of each row queries
only the committed table, and the candidate batch is not inserted until
the row loop ends; two rows of the same file sharing a non-empty
event_id not yet in storage therefore both pass the check and both land
in the same bulk-insert batch, so the row-level check does not enforce
event_id uniqueness within a file. -/
theorem claim_c10_within_file_duplicates
    (db : List MerchantEvent) (pre mid post : List CsvRow) (r1 r2 : CsvRow)
    (ev1 ev2 : MerchantEvent)
    (hid : pyStrip r2.event_id = pyStrip r1.event_id)
    (h1 : pyStrip r1.event_id ≠ "")
    (hdb : eventIdExists db (pyStrip r1.event_id) = false)
    (hc1 : rowToEvent r1 = some ev1) (hc2 : rowToEvent r2 = some ev2) :
    processRows db (pre ++ r1 :: mid ++ r2 :: post) =
      processRows db pre ++ ev1 :: processRows db mid ++ ev2 :: processRows db post := by
  have h12 : pyStrip r2.event_id ≠ "" := by rw [hid]; exact h1
  have hdb2 : eventIdExists db (pyStrip r2.event_id) = false := by rw [hid]; exact hdb
  simp [processRows_append, processRows, h1, h12, hdb, hdb2, hc1, hc2]

/-- Witness for claim C10: a file made of the same valid row twice
yields a two-record batch on an empty table. -/
theorem claim_c10_witness :
    processRows [] ([] ++ ⟨"E9", "M1", "", "P1", "", "5.00", "SUCCESS", "", "", ""⟩ ::
        [] ++ ⟨"E9", "M1", "", "P1", "", "5.00", "SUCCESS", "", "", ""⟩ :: []) =
      processRows [] [] ++
        ⟨"E9", some "M1", none, some "P1", none, some 500, some "SUCCESS", none, none, none⟩ ::
        processRows [] [] ++
        ⟨"E9", some "M1", none, some "P1", none, some 500, some "SUCCESS", none, none, none⟩ ::
        processRows [] [] :=
  claim_c10_within_file_duplicates [] [] [] [] _ _ _ _
    (by decide) (by decide) (by decide) (by decide) (by decide)

/-- Committed table after the first n files of a fault-free directory
scan started on table db. -/
def dbAfter (db : List MerchantEvent) (files : List (List CsvRow)) (n : Nat) :
    List MerchantEvent :=
  seedGood db (files.take n)

/-- Records the scan inserts and commits from file number n. -/
def addedAt (db : List MerchantEvent) (files : List (List CsvRow)) (n : Nat) :
    List MerchantEvent :=
  processRows (dbAfter db files n) (files.getD n [])

/-- Fault-free ingestion splits over concatenation of file lists. -/
theorem seedGood_append (db : List MerchantEvent) (xs ys : List (List CsvRow)) :
    seedGood db (xs ++ ys) = seedGood (seedGood db xs) ys := by
  induction xs generalizing db with
  | nil => rfl
  | cons a l ih => simp [seedGood, ih]

/-- Processing one more file appends exactly the records it inserts. -/
theorem dbAfter_succ (db : List MerchantEvent) (files : List (List CsvRow)) (n : Nat) :
    dbAfter db files (n + 1) = dbAfter db files n ++ addedAt db files n := by
  unfold dbAfter addedAt
  rw [List.take_succ, seedGood_append]
  cases h : files[n]? with
  | none =>
    have hd : files.getD n [] = [] := by simp [List.getD, h]
    simp [seedGood, h, hd, processRows]
  | some rows =>
    have hd : files.getD n [] = rows := by simp [List.getD, h]
    simp [seedGood, process_single_csv, h, hd, dbAfter]

/-- Committed rows are never removed as the scan advances. -/
theorem mem_dbAfter_mono (db : List MerchantEvent) (files : List (List CsvRow))
    {m n : Nat} (hmn : m ≤ n) {ev : MerchantEvent} (h : ev ∈ dbAfter db files m) :
    ev ∈ dbAfter db files n := by
  induction n with
  | zero => cases Nat.le_zero.mp hmn; exact h
  | succ k ih =>
    rcases eq_or_lt_of_le hmn with heq | hlt
    · rw [← heq]; exact h
    · rw [dbAfter_succ]
      exact List.mem_append_left _ (ih (Nat.lt_succ_iff.mp hlt))

/-- Records inserted from file n are committed before file n + 1. -/
theorem mem_addedAt_dbAfter (db : List MerchantEvent) (files : List (List CsvRow))
    {n : Nat} {ev : MerchantEvent} (h : ev ∈ addedAt db files n) :
    ev ∈ dbAfter db files (n + 1) := by
  rw [dbAfter_succ]
  exact List.mem_append_right _ h

/-- Bool-level duplicate query unfolded to membership talk. -/
theorem eventIdExists_eq_false_iff (d : List MerchantEvent) (e : String) :
    eventIdExists d e = false ↔ ∀ x ∈ d, x.event_id ≠ e := by
  simp [eventIdExists]

/-- Claim C6: during a fault-free directory scan, every record inserted
from a file had an event_id absent from the committed table at the time
its row was examined; consequently no event_id already stored before the
scan is ever inserted again, and two distinct files of the scan never
both insert records sharing an event_id, so ingestion across files
preserves cross-file uniqueness of event_id. -/
theorem claim_c6_cross_file_dedup (db : List MerchantEvent)
    (files : List (List CsvRow)) :
    (∀ n ev, ev ∈ addedAt db files n →
      eventIdExists (dbAfter db files n) ev.event_id = false) ∧
    (∀ n ev, ev ∈ addedAt db files n → ∀ ev0 ∈ db, ev0.event_id ≠ ev.event_id) ∧
    (∀ i j, i < j → ∀ ev ∈ addedAt db files i, ∀ ev2 ∈ addedAt db files j,
      ev.event_id ≠ ev2.event_id) := by
  refine ⟨?_, ?_, ?_⟩
  · intro n ev h
    exact mem_processRows_fresh h
  · intro n ev h ev0 h0 heq
    have hfresh := mem_processRows_fresh h
    have h0n : ev0 ∈ dbAfter db files n :=
      mem_dbAfter_mono db files (Nat.zero_le n) h0
    exact (eventIdExists_eq_false_iff _ _).mp hfresh ev0 h0n heq
  · intro i j hij ev hi ev2 hj heq
    have hfresh := mem_processRows_fresh hj
    have hev : ev ∈ dbAfter db files j :=
      mem_dbAfter_mono db files (Nat.succ_le_of_lt hij) (mem_addedAt_dbAfter db files hi)
    exact (eventIdExists_eq_false_iff _ _).mp hfresh ev hev heq

/-- Witness for claim C6: two one-row files with distinct fresh
event_ids each insert their record, and the theorem yields that the two
inserted records disagree on event_id. -/
theorem claim_c6_witness :
    (⟨"E1", some "M1", none, none, none, some 100, none, none, none, none⟩ : MerchantEvent).event_id ≠
    (⟨"E2", some "M2", none, none, none, some 200, none, none, none, none⟩ : MerchantEvent).event_id :=
  (claim_c6_cross_file_dedup []
    [[⟨"E1", "M1", "", "", "", "1.00", "", "", "", ""⟩],
     [⟨"E2", "M2", "", "", "", "2.00", "", "", "", ""⟩]]).2.2
    0 1 (by decide) _ (by decide) _ (by decide)

/-- Membership through stable insertion. -/
theorem mem_insertByDesc {α : Type} (key : α → Int) (a x : α) (l : List α) :
    x ∈ insertByDesc key a l ↔ x = a ∨ x ∈ l := by
  induction l with
  | nil => simp [insertByDesc]
  | cons y ys ih =>
    by_cases h : key y < key a
    · simp [insertByDesc, h]
    · simp only [insertByDesc, if_neg h, List.mem_cons, ih]
      tauto

/-- Membership through the stable descending sort. -/
theorem mem_sortByDesc {α : Type} (key : α → Int) (x : α) (l : List α) :
    x ∈ sortByDesc key l ↔ x ∈ l := by
  induction l with
  | nil => simp [sortByDesc]
  | cons y ys ih => simp [sortByDesc, mem_insertByDesc, ih]

/-- Insertion never returns the empty list. -/
theorem insertByDesc_ne_nil {α : Type} (key : α → Int) (a : α) (l : List α) :
    insertByDesc key a l ≠ [] := by
  cases l with
  | nil => simp [insertByDesc]
  | cons y ys =>
    by_cases h : key y < key a <;> simp [insertByDesc, h]

/-- The sort yields the empty list exactly on the empty list. -/
theorem sortByDesc_eq_nil_iff {α : Type} (key : α → Int) (l : List α) :
    sortByDesc key l = [] ↔ l = [] := by
  cases l with
  | nil => simp [sortByDesc]
  | cons y ys => simp [sortByDesc, insertByDesc_ne_nil]

/-- Head of an insertion: the inserted element or the old head. -/
theorem insertByDesc_head {α : Type} (key : α → Int) (a : α) {l : List α}
    {y : α} {t : List α} (h : insertByDesc key a l = y :: t) :
    y = a ∨ ∃ t0, l = y :: t0 := by
  cases l with
  | nil =>
    simp [insertByDesc] at h
    exact Or.inl h.1.symm
  | cons z zs =>
    by_cases hc : key z < key a
    · rw [insertByDesc, if_pos hc] at h
      injection h with h1 h2
      exact Or.inl h1.symm
    · rw [insertByDesc, if_neg hc] at h
      injection h with h1 h2
      exact Or.inr ⟨zs, by rw [h1]⟩

/-- The head of the descending sort of a non-empty list carries a
maximal key. -/
theorem sortByDesc_head_max {α : Type} (key : α → Int) (l : List α)
    {y : α} {t : List α} (h : sortByDesc key l = y :: t) :
    ∀ x ∈ l, key x ≤ key y := by
  induction l generalizing y t with
  | nil => simp [sortByDesc] at h
  | cons a l2 ih =>
    intro x hx
    cases hs : sortByDesc key l2 with
    | nil =>
      have hl2 : l2 = [] := (sortByDesc_eq_nil_iff key l2).mp hs
      rw [sortByDesc, hs] at h
      simp [insertByDesc] at h
      rcases List.mem_cons.mp hx with hxa | hxl
      · rw [hxa, ← h.1]
      · rw [hl2] at hxl; simp at hxl
    | cons b bs =>
      have hmax := ih hs
      rw [sortByDesc, hs] at h
      by_cases hba : key b < key a
      · rw [insertByDesc, if_pos hba] at h
        have hya : y = a := ((List.cons.injEq ..).mp h).1.symm
        rcases List.mem_cons.mp hx with hxa | hxl
        · rw [hxa, hya]
        · rw [hya]
          exact le_of_lt (lt_of_le_of_lt (hmax x hxl) hba)
      · rw [insertByDesc, if_neg hba] at h
        have hyb : y = b := ((List.cons.injEq ..).mp h).1.symm
        rcases List.mem_cons.mp hx with hxa | hxl
        · rw [hxa, hyb]
          exact le_of_not_lt hba
        · rw [hyb]
          exact hmax x hxl

/-- Stable insertion preserves the descending chain property. -/
theorem chain_insertByDesc {α : Type} (key : α → Int) (a : α) (l : List α)
    (h : List.Chain' (fun u v => key v ≤ key u) l) :
    List.Chain' (fun u v => key v ≤ key u) (insertByDesc key a l) := by
  induction l with
  | nil => simp [insertByDesc]
  | cons y ys ih =>
    by_cases hc : key y < key a
    · rw [insertByDesc, if_pos hc]
      exact List.chain'_cons.mpr ⟨le_of_lt hc, h⟩
    · rw [insertByDesc, if_neg hc]
      have htail := ih (List.Chain'.tail h)
      cases hi : insertByDesc key a ys with
      | nil => exact absurd hi (insertByDesc_ne_nil key a ys)
      | cons z zs =>
        rw [hi] at htail
        refine List.chain'_cons.mpr ⟨?_, htail⟩
        rcases insertByDesc_head key a hi with hz | ⟨t0, hys⟩
        · rw [hz]; exact le_of_not_lt hc
        · rw [hys] at h
          exact (List.chain'_cons.mp h).1

/-- The descending sort is sorted: adjacent keys never increase. -/
theorem sortByDesc_chain {α : Type} (key : α → Int) (l : List α) :
    List.Chain' (fun u v => key v ≤ key u) (sortByDesc key l) := by
  induction l with
  | nil => simp [sortByDesc]
  | cons a l2 ih => exact chain_insertByDesc key a _ ih

/-- Membership in the seen-accumulating deduplication. -/
theorem mem_distinctAux (x : String) (seen xs : List String) :
    x ∈ distinctAux seen xs ↔ x ∈ xs ∧ x ∉ seen := by
  induction xs generalizing seen with
  | nil => simp [distinctAux]
  | cons y ys ih =>
    by_cases hxy : x = y
    · subst hxy
      by_cases h : x ∈ seen
      · simp [distinctAux, h, ih]
      · simp [distinctAux, h, ih]
    · by_cases h : y ∈ seen
      · simp [distinctAux, h, ih, hxy]
      · simp [distinctAux, h, ih, hxy]

/-- The group keys are exactly the values occurring in the input. -/
theorem mem_distinctList (x : String) (xs : List String) :
    x ∈ distinctList xs ↔ x ∈ xs := by
  simp [distinctList, mem_distinctAux]

/-- The top-merchant filter keeps exactly the successful events with
non-null merchant and non-null amount. -/
theorem mem_qualifyingTop {db : List MerchantEvent} {ev : MerchantEvent} :
    ev ∈ qualifyingTop db ↔
      ev ∈ db ∧ ev.status = some "SUCCESS" ∧ ev.merchant_id.isSome ∧ ev.amount.isSome := by
  simp [qualifyingTop, List.mem_filter, isSuccess, and_assoc]

/-- A pair belongs to the top-merchant groups exactly when its key is
the merchant of some qualifying event and its value is that group sum. -/
theorem mem_topGroups {db : List MerchantEvent} {m : String} {s : Int} :
    (m, s) ∈ topGroups db ↔
      (∃ ev, ev ∈ qualifyingTop db ∧ ev.merchant_id = some m) ∧
      s = merchantTotal (qualifyingTop db) m := by
  simp only [topGroups, List.mem_map]
  constructor
  · rintro ⟨m0, hm0, heq⟩
    have h1 := (mem_distinctList m0 _).mp hm0
    rw [List.mem_filterMap] at h1
    cases heq
    exact ⟨h1, rfl⟩
  · rintro ⟨⟨ev, hev, hm⟩, hs⟩
    subst hs
    exact ⟨m, (mem_distinctList m _).mpr (List.mem_filterMap.mpr ⟨ev, hev, hm⟩), rfl⟩

/-- Claim C7: the top-merchant computation considers exactly the events
with status SUCCESS, non-null merchant_id and non-null amount: a
merchant appears as a group exactly when such an event of that merchant
is stored, the value of a group is the sum of the amounts of its
filtered events (exact in cents, so already rounded to 2 decimal
places), the returned merchant is a group of maximal sum, the function
of the stored list is deterministic by construction with ties resolved
to the earliest group, and when no event qualifies the result is the
null merchant with zero volume. -/
theorem claim_c7_top_merchant (db : List MerchantEvent) :
    (qualifyingTop db = [] → get_top_merchant (some db) = (none, 0)) ∧
    (qualifyingTop db ≠ [] → ∃ m s, get_top_merchant (some db) = (some m, s)) ∧
    (∀ m s, get_top_merchant (some db) = (some m, s) →
      (m, s) ∈ topGroups db ∧ ∀ p ∈ topGroups db, p.2 ≤ s) ∧
    (∀ m, (∃ s, (m, s) ∈ topGroups db) ↔
      ∃ ev, ev ∈ db ∧ ev.merchant_id = some m ∧ ev.status = some "SUCCESS" ∧
        ev.amount ≠ none) ∧
    (∀ m s, (m, s) ∈ topGroups db → s = merchantTotal (qualifyingTop db) m) := by
  refine ⟨?_, ?_, ?_, ?_, ?_⟩
  · intro h
    have hg : topGroups db = [] := by simp [topGroups, h, distinctList, distinctAux]
    simp [get_top_merchant, hg, sortByDesc]
  · intro h
    obtain ⟨ev, hev⟩ := List.exists_mem_of_ne_nil _ h
    obtain ⟨hdb, hst, hmid, hamt⟩ := mem_qualifyingTop.mp hev
    obtain ⟨m0, hm0⟩ := Option.isSome_iff_exists.mp hmid
    have hmem : m0 ∈ (qualifyingTop db).filterMap (fun ev => ev.merchant_id) :=
      List.mem_filterMap.mpr ⟨ev, hev, hm0⟩
    have hne : topGroups db ≠ [] := by
      intro hnil
      have : (m0, merchantTotal (qualifyingTop db) m0) ∈ topGroups db :=
        List.mem_map.mpr ⟨m0, (mem_distinctList m0 _).mpr hmem, rfl⟩
      rw [hnil] at this
      simp at this
    cases hs : sortByDesc (fun p => p.2) (topGroups db) with
    | nil => exact absurd ((sortByDesc_eq_nil_iff _ _).mp hs) hne
    | cons g t => exact ⟨g.1, g.2, by simp [get_top_merchant, hs]⟩
  · intro m s h
    cases hs : sortByDesc (fun p => p.2) (topGroups db) with
    | nil => simp [get_top_merchant, hs] at h
    | cons g t =>
      simp only [get_top_merchant, hs, Option.some.injEq, Prod.mk.injEq] at h
      have hg : g ∈ topGroups db :=
        (mem_sortByDesc _ g _).mp (hs ▸ List.mem_cons_self g t)
      constructor
      · have hpair : (m, s) = g := by
          rw [← h.1, ← h.2]
        rw [hpair]; exact hg
      · intro p hp
        have hmax := sortByDesc_head_max (fun p => p.2) (topGroups db) hs p hp
        simpa [h.2] using hmax
  · intro m
    constructor
    · rintro ⟨s, hms⟩
      obtain ⟨⟨ev, hev, hm⟩, _⟩ := mem_topGroups.mp hms
      obtain ⟨hdb, hst, _, hamt⟩ := mem_qualifyingTop.mp hev
      exact ⟨ev, hdb, hm, hst, Option.isSome_iff_ne_none.mp hamt⟩
    · rintro ⟨ev, hdb, hm, hst, hamt⟩
      refine ⟨merchantTotal (qualifyingTop db) m, mem_topGroups.mpr ⟨⟨ev, ?_, hm⟩, rfl⟩⟩
      exact mem_qualifyingTop.mpr
        ⟨hdb, hst, by simp [hm], Option.isSome_iff_ne_none.mpr hamt⟩
  · intro m s h
    exact (mem_topGroups.mp h).2

/-- Sample table of the specification: merchant A with one successful
event of 100.00 and merchant B with one successful event of 250.00. -/
def topSampleDb : List MerchantEvent :=
  [⟨"E1", some "A", none, none, none, some 10000, some "SUCCESS", none, none, none⟩,
   ⟨"E2", some "B", none, none, none, some 25000, some "SUCCESS", none, none, none⟩]

/-- Witness for claim C7: on the sample table the returned pair is
merchant B with 250.00, a group whose summed volume is maximal. -/
theorem claim_c7_witness :
    ("B", (25000 : Int)) ∈ topGroups topSampleDb ∧
    ∀ p ∈ topGroups topSampleDb, p.2 ≤ (25000 : Int) :=
  (claim_c7_top_merchant topSampleDb).2.2.1 "B" 25000 (by decide)

/-- The failure-rate filter keeps exactly the events with non-null
product and status SUCCESS or FAILED. -/
theorem mem_qualifyingFR {db : List MerchantEvent} {ev : MerchantEvent} :
    ev ∈ qualifyingFR db ↔
      ev ∈ db ∧ ev.product.isSome ∧
        (ev.status = some "SUCCESS" ∨ ev.status = some "FAILED") := by
  simp [qualifyingFR, List.mem_filter, and_assoc]

/-- A pair belongs to the failure-rate rows exactly when its key is the
product of some filtered event, the FAILED plus SUCCESS total of that
product is positive, and its value is the rounded rate. -/
theorem mem_failureRateRows {db : List MerchantEvent} {p : String} {r : Nat} :
    (p, r) ∈ failureRateRows db ↔
      (∃ ev, ev ∈ qualifyingFR db ∧ ev.product = some p) ∧
      0 < statusCount (qualifyingFR db) p "FAILED" +
        statusCount (qualifyingFR db) p "SUCCESS" ∧
      r = rateTenths (statusCount (qualifyingFR db) p "FAILED")
        (statusCount (qualifyingFR db) p "FAILED" +
         statusCount (qualifyingFR db) p "SUCCESS") := by
  simp only [failureRateRows, List.mem_filterMap]
  constructor
  · rintro ⟨p0, hp0, heq⟩
    by_cases hpos : 0 < statusCount (qualifyingFR db) p0 "FAILED" +
        statusCount (qualifyingFR db) p0 "SUCCESS"
    · rw [if_pos hpos] at heq
      simp only [Option.some.injEq, Prod.mk.injEq] at heq
      obtain ⟨h1, h2⟩ := heq
      subst h1
      have h3 := (mem_distinctList p0 _).mp hp0
      rw [List.mem_filterMap] at h3
      exact ⟨h3, hpos, h2.symm⟩
    · rw [if_neg hpos] at heq
      exact absurd heq (by simp)
  · rintro ⟨⟨ev, hev, hp⟩, hpos, hr⟩
    refine ⟨p, (mem_distinctList p _).mpr (List.mem_filterMap.mpr ⟨ev, hev, hp⟩), ?_⟩
    rw [if_pos hpos, hr]

/-- Sample table of the specification for the failure rates: product P1
with 3 FAILED and 7 SUCCESS events, product P2 with a PENDING event
only. -/
def frSampleDb : List MerchantEvent :=
  [⟨"F1", some "M", none, some "P1", none, some 100, some "FAILED", none, none, none⟩,
   ⟨"F2", some "M", none, some "P1", none, some 100, some "FAILED", none, none, none⟩,
   ⟨"F3", some "M", none, some "P1", none, some 100, some "FAILED", none, none, none⟩,
   ⟨"S1", some "M", none, some "P1", none, some 100, some "SUCCESS", none, none, none⟩,
   ⟨"S2", some "M", none, some "P1", none, some 100, some "SUCCESS", none, none, none⟩,
   ⟨"S3", some "M", none, some "P1", none, some 100, some "SUCCESS", none, none, none⟩,
   ⟨"S4", some "M", none, some "P1", none, some 100, some "SUCCESS", none, none, none⟩,
   ⟨"S5", some "M", none, some "P1", none, some 100, some "SUCCESS", none, none, none⟩,
   ⟨"S6", some "M", none, some "P1", none, some 100, some "SUCCESS", none, none, none⟩,
   ⟨"S7", some "M", none, some "P1", none, some 100, some "SUCCESS", none, none, none⟩,
   ⟨"X1", some "M", none, some "P2", none, some 100, some "PENDING", none, none, none⟩]

/-- Claim C8: the failure-rate computation considers exactly the events
with non-null product and status SUCCESS or FAILED: a product appears
exactly when such an event of that product is stored, every returned row
has a positive FAILED plus SUCCESS total and carries the rate FAILED
over the total times 100 rounded to one decimal place (held in tenths of
a percent), the sequence is sorted by failure rate descending, and on
the sample table product P1 with 3 FAILED and 7 SUCCESS yields rate 30.0
while the PENDING-only product P2 is absent. -/
theorem claim_c8_failure_rates (db : List MerchantEvent) :
    (∀ p r, (p, r) ∈ get_failure_rates (some db) →
      0 < statusCount (qualifyingFR db) p "FAILED" +
        statusCount (qualifyingFR db) p "SUCCESS" ∧
      r = rateTenths (statusCount (qualifyingFR db) p "FAILED")
        (statusCount (qualifyingFR db) p "FAILED" +
         statusCount (qualifyingFR db) p "SUCCESS")) ∧
    (∀ p, (∃ r, (p, r) ∈ get_failure_rates (some db)) ↔
      ∃ ev, ev ∈ db ∧ ev.product = some p ∧
        (ev.status = some "SUCCESS" ∨ ev.status = some "FAILED")) ∧
    List.Chain' (fun u v => v.2 ≤ u.2) (get_failure_rates (some db)) ∧
    get_failure_rates (some frSampleDb) = [("P1", 300)] := by
  refine ⟨?_, ?_, ?_, by decide⟩
  · intro p r h
    have h2 : (p, r) ∈ sortByDesc (fun row => (row.2 : Int)) (failureRateRows db) := h
    have h3 := mem_failureRateRows.mp ((mem_sortByDesc _ _ _).mp h2)
    exact ⟨h3.2.1, h3.2.2⟩
  · intro p
    constructor
    · rintro ⟨r, h⟩
      have h2 : (p, r) ∈ sortByDesc (fun row => (row.2 : Int)) (failureRateRows db) := h
      obtain ⟨⟨ev, hev, hp⟩, _, _⟩ := mem_failureRateRows.mp ((mem_sortByDesc _ _ _).mp h2)
      obtain ⟨hdb, _, hstat⟩ := mem_qualifyingFR.mp hev
      exact ⟨ev, hdb, hp, hstat⟩
    · rintro ⟨ev, hdb, hp, hstat⟩
      have hqf : ev ∈ qualifyingFR db :=
        mem_qualifyingFR.mpr ⟨hdb, by simp [hp], hstat⟩
      have hpos : 0 < statusCount (qualifyingFR db) p "FAILED" +
          statusCount (qualifyingFR db) p "SUCCESS" := by
        rcases hstat with hst | hst
        · have hm : ev ∈ (qualifyingFR db).filter
              (fun e => e.product = some p && e.status = some "SUCCESS") :=
            List.mem_filter.mpr ⟨hqf, by simp [hp, hst]⟩
          exact Nat.lt_of_lt_of_le (List.length_pos_of_mem hm) (Nat.le_add_left _ _)
        · have hm : ev ∈ (qualifyingFR db).filter
              (fun e => e.product = some p && e.status = some "FAILED") :=
            List.mem_filter.mpr ⟨hqf, by simp [hp, hst]⟩
          exact Nat.lt_of_lt_of_le (List.length_pos_of_mem hm) (Nat.le_add_right _ _)
      refine ⟨rateTenths (statusCount (qualifyingFR db) p "FAILED")
        (statusCount (qualifyingFR db) p "FAILED" +
         statusCount (qualifyingFR db) p "SUCCESS"), ?_⟩
      have : (p, rateTenths (statusCount (qualifyingFR db) p "FAILED")
          (statusCount (qualifyingFR db) p "FAILED" +
           statusCount (qualifyingFR db) p "SUCCESS")) ∈ failureRateRows db :=
        mem_failureRateRows.mpr ⟨⟨ev, hqf, hp⟩, hpos, rfl⟩
      exact (mem_sortByDesc (fun row => (row.2 : Int)) _ _).mpr this
  · have hc := sortByDesc_chain (fun row => (row.2 : Int)) (failureRateRows db)
    exact List.Chain'.imp (fun a b hab => by exact_mod_cast hab) hc

/-- Witness for claim C8: the theorem evaluated on the sample table at
the returned row of product P1. -/
theorem claim_c8_witness :
    0 < statusCount (qualifyingFR frSampleDb) "P1" "FAILED" +
      statusCount (qualifyingFR frSampleDb) "P1" "SUCCESS" ∧
    300 = rateTenths (statusCount (qualifyingFR frSampleDb) "P1" "FAILED")
      (statusCount (qualifyingFR frSampleDb) "P1" "FAILED" +
       statusCount (qualifyingFR frSampleDb) "P1" "SUCCESS") :=
  (claim_c8_failure_rates frSampleDb).1 "P1" 300 (by decide)
